import Mathlib

/-!
Shallow embedding of the AI-Photo-Guide (LuminaTour) core logic:
the journal store (`src/App.tsx`), the section parser, the AR fact
extractor and the audio-timing engine (`src/components/NarratedExperience.tsx`).
Times from the Web Audio clock are modelled as rationals; the stream of
`Math.random()` draws is modelled as an explicit function `Nat → ℚ`
consumed in call order (three draws per emitted fact node).
-/

namespace LuminaTour

/-! ## Data model (`src/types.ts`, flags added by `src/App.tsx`) -/

structure LandmarkInfo where
  name : String
  description : String
  location : Option String
  latitude : Option ℚ
  longitude : Option ℚ
deriving DecidableEq

structure GroundingSource where
  title : String
  uri : String
deriving DecidableEq

structure RelatedLandmark where
  name : String
  reason : String
deriving DecidableEq

structure LandmarkResult where
  id : String
  info : LandmarkInfo
  history : String
  sources : List GroundingSource
  imageUrl : String
  timestamp : Nat
  relatedLandmarks : List RelatedLandmark
  audioBase64 : Option String
  isBookmarked : Bool
  isDownloaded : Bool
deriving DecidableEq

/-! ## Journal store (`src/App.tsx`) -/

/-- `saveToHistory` (App.tsx lines 47-54): drop any stored entry with the new
result's id, prepend the new result, keep the first 50 entries. -/
def saveToHistory (newResult : LandmarkResult) (prev : List LandmarkResult) :
    List LandmarkResult :=
  let filtered := prev.filter (fun item => item.id ≠ newResult.id)
  (newResult :: filtered).take 50

/-- Folding `saveToHistory` over a list of results, oldest first. -/
def upsertAll (l : List LandmarkResult) (init : List LandmarkResult) :
    List LandmarkResult :=
  l.foldl (fun acc r => saveToHistory r acc) init

/-- `toggleBookmark` (App.tsx lines 118-129), journal-list part: flip the
`isBookmarked` flag of the entry whose id matches, keep everything else. -/
def toggleBookmark (id : String) (prev : List LandmarkResult) :
    List LandmarkResult :=
  prev.map (fun item =>
    if item.id = id then { item with isBookmarked := !item.isBookmarked } else item)

/-- `toggleDownload` (App.tsx lines 131-142), journal-list part. -/
def toggleDownload (id : String) (prev : List LandmarkResult) :
    List LandmarkResult :=
  prev.map (fun item =>
    if item.id = id then { item with isDownloaded := !item.isDownloaded } else item)

/-! ## Joined history + related fetch (`processLandmark`, App.tsx lines 94-116) -/

/-- Result shape of `getLandmarkHistory` (src/services/gemini.ts). -/
structure HistoryData where
  text : String
  sources : List GroundingSource
deriving DecidableEq

/-- `Promise.all` over two settled outcomes: ok only when both are ok,
otherwise a single rejection reason. -/
def promiseAll2 {ε α β : Type} : Except ε α → Except ε β → Except ε (α × β)
  | Except.ok a, Except.ok b => Except.ok (a, b)
  | Except.error e, _ => Except.error e
  | Except.ok _, Except.error e => Except.error e

/-- `processLandmark` (App.tsx lines 94-116) with the two awaited fetches as
settled outcomes: on joint success builds the combined `LandmarkResult` and
saves it to the journal; a rejection propagates out of the `await` before any
result is built, so the journal is untouched and the single error surfaces
(caught by `handleCapture`, App.tsx lines 56-73). Returns
(produced result, journal afterwards, surfaced error). -/
def processLandmark (newId : String) (info : LandmarkInfo) (image : String)
    (ts : Nat) (historyFetch : Except String HistoryData)
    (relatedFetch : Except String (List RelatedLandmark))
    (journal : List LandmarkResult) :
    Option LandmarkResult × List LandmarkResult × Option String :=
  match promiseAll2 historyFetch relatedFetch with
  | Except.error e => (none, journal, some e)
  | Except.ok (historyData, relatedData) =>
      let newResult : LandmarkResult :=
        { id := newId, info := info, history := historyData.text,
          sources := historyData.sources, relatedLandmarks := relatedData,
          imageUrl := image, timestamp := ts, audioBase64 := none,
          isBookmarked := false, isDownloaded := false }
      (some newResult, saveToHistory newResult journal, none)

/-! ## Audio timing engine (`src/components/NarratedExperience.tsx`) -/

/-- The playback-relevant state of `NarratedExperience`: React state
(`isPlaying`, `currentTime`, `duration`, `playbackSpeed`) and the refs
(`offsetRef`, `startTimeRef`, presence of `audioBufferRef` /
`audioContextRef` / `sourceNodeRef`). -/
structure EngineState where
  isPlaying : Bool
  currentTime : ℚ
  duration : ℚ
  offset : ℚ
  startTime : ℚ
  playbackSpeed : ℚ
  hasBuffer : Bool
  hasContext : Bool
  sourceActive : Bool
deriving DecidableEq

/-- The position the progress loop would compute for state `s` when the
audio-context clock reads `now`. -/
def posAt (s : EngineState) (now : ℚ) : ℚ :=
  (now - s.startTime) * s.playbackSpeed + s.offset

/-- `stopPlayback` (lines 355-361): release the source node, clear playing. -/
def stopPlayback (s : EngineState) : EngineState :=
  { s with sourceActive := false, isPlaying := false }

/-- `playFromOffset` (lines 336-353): guarded no-op without a decoded buffer
and a context; otherwise stop any active source, clamp the offset into
`[0, duration]`, anchor the clock at `now` and start a fresh source. -/
def playFromOffset (offset : ℚ) (now : ℚ) (s : EngineState) : EngineState :=
  if s.hasBuffer = false ∨ s.hasContext = false then s
  else
    let s₁ := stopPlayback s
    let off := max 0 (min offset s₁.duration)
    { s₁ with offset := off, startTime := now, sourceActive := true,
              isPlaying := true, currentTime := off }

/-- `togglePlayback` (lines 363-374). -/
def togglePlayback (now : ℚ) (s : EngineState) : EngineState :=
  if s.isPlaying then
    stopPlayback { s with offset := s.currentTime }
  else if s.currentTime ≥ s.duration then
    playFromOffset 0 now s
  else
    playFromOffset s.currentTime now s

/-- `handleSeek` (lines 386-394): set `currentTime` to the raw slider value,
then restart from it when playing, or store it as the paused offset. -/
def handleSeek (t : ℚ) (now : ℚ) (s : EngineState) : EngineState :=
  let s₁ := { s with currentTime := t }
  if s₁.isPlaying then playFromOffset t now s₁
  else { s₁ with offset := t }

/-- `skip` (lines 376-384): clamp `currentTime + seconds` to `[0, duration]`;
restart there when playing, otherwise update offset and position. -/
def skip (seconds : ℚ) (now : ℚ) (s : EngineState) : EngineState :=
  let newTime := max 0 (min (s.currentTime + seconds) s.duration)
  if s.isPlaying then playFromOffset newTime now s
  else { s with offset := newTime, currentTime := newTime }

/-- `changePlaybackSpeed` (lines 396-405): no-op on the same speed; otherwise
re-anchor (`offsetRef := currentTime`, `startTimeRef := now`, with `now`
read as `audioContextRef.current?.currentTime || 0`) and store the new speed. -/
def changePlaybackSpeed (speed : ℚ) (now : ℚ) (s : EngineState) : EngineState :=
  if s.playbackSpeed = speed then s
  else
    let now₁ := if s.hasContext then now else 0
    { s with offset := s.currentTime, startTime := now₁, playbackSpeed := speed }

/-- `updateProgress` (lines 313-327): one animation-frame tick at clock
reading `now`. While playing with a context, recompute the position; at or
past `duration`, stop and pin the position to `duration`. -/
def updateProgress (now : ℚ) (s : EngineState) : EngineState :=
  if s.isPlaying = true ∧ s.hasContext = true then
    let current := (now - s.startTime) * s.playbackSpeed + s.offset
    if current ≥ s.duration then
      { s with currentTime := s.duration, isPlaying := false }
    else
      { s with currentTime := current }
  else s

/-! ## Section parser (`sections` memo, NarratedExperience.tsx lines 81-101)

Texts are modelled as `List Char`; `str` converts a literal. The JS
`String.prototype.split(/##\s+/)` is embedded as a left-to-right scan that
cuts at every occurrence of `##` followed by a maximal nonempty run of
whitespace. -/

/-- Convert a Lean string literal to the `List Char` text representation. -/
def str (s : String) : List Char := s.data

/-- JS `\s` for the characters these inputs use (ASCII whitespace). -/
def jsWS (c : Char) : Bool :=
  c = ' ' ∨ c = '\n' ∨ c = '\t' ∨ c = '\r' ∨ c = '\x0b' ∨ c = '\x0c'

/-- Drop a leading run of whitespace. -/
def dropWS : List Char → List Char
  | [] => []
  | c :: rest => if jsWS c then dropWS rest else c :: rest

/-- Trim whitespace from both ends (JS `trim()`). -/
def trimChars (l : List Char) : List Char :=
  ((dropWS ((dropWS l).reverse)).reverse)

/-- `text.split(/##\s+/)` as a single left-to-right scan, the way the
regex engine searches: it advances one character at a time and a delimiter
is two `#` followed by a maximal nonempty whitespace run. `acc` is the
current piece reversed; `st` is the scanner state: 0, 1 or 2 pending `#`
characters not yet committed to the piece (a third `#` commits the oldest
pending one), or 3 while greedily consuming the whitespace run of a matched
delimiter. -/
def rawSplitGo (acc : List Char) (st : Nat) : List Char → List (List Char)
  | [] =>
      if st = 3 then [[]]
      else [(List.replicate st '#' ++ acc).reverse]
  | c :: rest =>
      if st = 3 then
        if jsWS c then rawSplitGo acc 3 rest
        else if c = '#' then rawSplitGo [] 1 rest
        else rawSplitGo [c] 0 rest
      else if c = '#' then
        if st < 2 then rawSplitGo acc (st + 1) rest
        else rawSplitGo ('#' :: acc) 2 rest
      else if jsWS c ∧ st = 2 then
        acc.reverse :: rawSplitGo [] 3 rest
      else rawSplitGo (c :: (List.replicate st '#' ++ acc)) 0 rest

/-- `text.split(/##\s+/)`. -/
def rawSplit (t : List Char) : List (List Char) := rawSplitGo [] 0 t

/-- `piece.split('\n')`. -/
def splitLines (acc : List Char) : List Char → List (List Char)
  | [] => [acc.reverse]
  | '\n' :: rest => acc.reverse :: splitLines [] rest
  | c :: rest => splitLines (c :: acc) rest

/-- `lines.slice(1).join('\n')`. -/
def joinLines : List (List Char) → List Char
  | [] => []
  | [l] => l
  | l :: l₂ :: rest => l ++ '\n' :: joinLines (l₂ :: rest)

structure HistorySection where
  title : List Char
  content : List Char
deriving DecidableEq

/-- A section built from a post-header piece: first line (trimmed) is the
title, the remaining lines (joined back, trimmed) are the content. -/
def mkTailSection (piece : List Char) : HistorySection :=
  let lines := splitLines [] piece
  { title := trimChars lines.headI, content := trimChars (joinLines lines.tail) }

/-- The `sections` memo (lines 81-101): split on `/##\s+/`; when the text
before the first marker is nonempty after trimming, it becomes a leading
section whose title is its first line when shorter than 30 characters and
`"Introduction"` otherwise; every later piece becomes a titled section. -/
def sectionsOf (history : List Char) : List HistorySection :=
  let raw := rawSplit history
  let head := raw.headI
  let intro : List HistorySection :=
    if trimChars head ≠ [] then
      let t := trimChars head
      let lines := splitLines [] t
      let introTitle := if lines.headI.length < 30 then lines.headI else str "Introduction"
      [{ title := introTitle, content := t }]
    else []
  intro ++ raw.tail.map mkTailSection

/-- Number of `##`-whitespace header markers in a text: one less than the
number of pieces produced by the split. -/
def numMarkers (history : List Char) : Nat :=
  (rawSplit history).length - 1

/-- The text preceding the first header marker (the whole text if none). -/
def leadingText (history : List Char) : List Char :=
  (rawSplit history).headI

/-! ## Fact extractor (`arFactNodes` memo, NarratedExperience.tsx lines 103-132) -/

def sentencePunct (c : Char) : Bool := c = '.' ∨ c = '!' ∨ c = '?'

/-- `content.split(/[.!?]\s+/)` as a single left-to-right scan. `acc` is
the current piece reversed; `pend` holds a punctuation character read but
not yet committed (it opens a delimiter when whitespace follows, and is
committed to the piece otherwise); `sk` is set while greedily consuming the
whitespace run of a matched delimiter. -/
def splitSentencesGo (acc : List Char) (pend : Option Char) (sk : Bool) :
    List Char → List (List Char)
  | [] =>
      if sk then [[]]
      else
        match pend with
        | some p => [(p :: acc).reverse]
        | none => [acc.reverse]
  | c :: rest =>
      if sk then
        if jsWS c then splitSentencesGo acc none true rest
        else if sentencePunct c then splitSentencesGo [] (some c) false rest
        else splitSentencesGo [c] none false rest
      else
        match pend with
        | some p =>
            if jsWS c then acc.reverse :: splitSentencesGo [] none true rest
            else if sentencePunct c then
              splitSentencesGo (p :: acc) (some c) false rest
            else splitSentencesGo (c :: p :: acc) none false rest
        | none =>
            if sentencePunct c then splitSentencesGo acc (some c) false rest
            else splitSentencesGo (c :: acc) none false rest

/-- `content.split(/[.!?]\s+/)`. -/
def splitSentences (t : List Char) : List (List Char) :=
  splitSentencesGo [] none false t

/-- JS `\w` (ASCII word character). -/
def isWordChar (c : Char) : Bool := c.isAlphanum ∨ c = '_'

/-- The `\b` after the four digits: end of text or a following non-word
character. -/
def boundaryAfter : List Char → Bool
  | [] => true
  | e :: _ => !isWordChar e

/-- Try `(1\d{3}|20\d{2})\b` at the current position. -/
def yearAt : List Char → Option (List Char)
  | a :: b :: c :: d :: rest =>
      if ((a = '1' ∧ b.isDigit ∧ c.isDigit ∧ d.isDigit) ∨
          (a = '2' ∧ b = '0' ∧ c.isDigit ∧ d.isDigit)) ∧
         boundaryAfter rest = true then
        some [a, b, c, d]
      else none
  | _ => none

/-- The `\b` before the match: start of text or a preceding non-word char
(the first matched char is a digit, hence a word char). -/
def boundaryOK : Option Char → Bool
  | none => true
  | some c => !isWordChar c

/-- Left-to-right scan for the first match of `/\b(1\d{3}|20\d{2})\b/`,
i.e. `s.match(yearRegex)` with `match[0]` taken on success. -/
def findYearAux (prev : Option Char) : List Char → Option (List Char)
  | [] => none
  | c :: rest =>
      match (if boundaryOK prev then yearAt (c :: rest) else none) with
      | some y => some y
      | none => findYearAux (some c) rest

def findYear (s : List Char) : Option (List Char) := findYearAux none s

/-- Whether the characters are one of the two four-digit year shapes. -/
def yearShape (y : List Char) : Bool :=
  match y with
  | [a, b, c, d] =>
      (a = '1' ∧ b.isDigit ∧ c.isDigit ∧ d.isDigit) ∨
      (a = '2' ∧ b = '0' ∧ c.isDigit ∧ d.isDigit)
  | _ => false

/-- Does `l` start with `pat`? -/
def listStartsWith : List Char → List Char → Bool
  | [], _ => true
  | _ :: _, [] => false
  | p :: ps, c :: cs => p = c && listStartsWith ps cs

/-- JS `String.prototype.includes`. -/
def containsSub (pat : List Char) : List Char → Bool
  | [] => listStartsWith pat []
  | c :: rest => listStartsWith pat (c :: rest) || containsSub pat rest

/-- `s.toLowerCase().includes(pat)`. -/
def lowerIncludes (s : List Char) (pat : String) : Bool :=
  containsSub (str pat) (s.map Char.toLower)

/-- The theme chain of lines 112-116: four successive unconditional
overrides of `"General History"`, so a later matching rule wins. -/
def themeOf (s : List Char) : String :=
  let theme := "General History"
  let theme := if lowerIncludes s "architect" || lowerIncludes s "design" then "Architecture" else theme
  let theme := if lowerIncludes s "war" || lowerIncludes s "battle" || lowerIncludes s "conflict" then "Conflict" else theme
  let theme := if lowerIncludes s "rebuild" || lowerIncludes s "modern" || lowerIncludes s "today" then "Modernization" else theme
  let theme := if lowerIncludes s "king" || lowerIncludes s "queen" || lowerIncludes s "emperor" then "Royal Era" else theme
  theme

/-- The theme rule as the claim words it: first-matching-rule-wins with
precedence architecture, conflict, modernization, royal era, falling back to
general. Stated from the claim, to be compared against `themeOf`. -/
def themeOfSpecOrder (s : List Char) : String :=
  if lowerIncludes s "architect" || lowerIncludes s "design" then "Architecture"
  else if lowerIncludes s "war" || lowerIncludes s "battle" || lowerIncludes s "conflict" then "Conflict"
  else if lowerIncludes s "rebuild" || lowerIncludes s "modern" || lowerIncludes s "today" then "Modernization"
  else if lowerIncludes s "king" || lowerIncludes s "queen" || lowerIncludes s "emperor" then "Royal Era"
  else "General History"

/-- First-matching-rule-wins with the precedence the code actually
implements: royal era, then modernization, then conflict, then architecture,
falling back to general. -/
def themeOfPriority (s : List Char) : String :=
  if lowerIncludes s "king" || lowerIncludes s "queen" || lowerIncludes s "emperor" then "Royal Era"
  else if lowerIncludes s "rebuild" || lowerIncludes s "modern" || lowerIncludes s "today" then "Modernization"
  else if lowerIncludes s "war" || lowerIncludes s "battle" || lowerIncludes s "conflict" then "Conflict"
  else if lowerIncludes s "architect" || lowerIncludes s "design" then "Architecture"
  else "General History"

structure ARFactNode where
  id : String
  year : List Char
  text : List Char
  theme : String
  sectionIdx : Nat
  x : ℚ
  y : ℚ
  z : ℚ
deriving DecidableEq

/-- `s.trim().substring(0, 120) + (s.length > 120 ? '...' : '')`. -/
def nodeText (s : List Char) : List Char :=
  (trimChars s).take 120 ++ (if s.length > 120 then str "..." else [])

/-- Build the node pushed at lines 118-127. The node draws the next three
values of the random stream; `acc.length` counts the nodes already emitted. -/
def mkNode (sIdx idx : Nat) (s y : List Char) (k : Nat) (rand : Nat → ℚ) :
    ARFactNode :=
  { id := s!"fact-{sIdx}-{idx}",
    year := y,
    text := nodeText s,
    theme := themeOf s,
    sectionIdx := sIdx,
    x := (rand (3 * k) - 1/2) * 50,
    y := (rand (3 * k + 1) - 1/2) * 35,
    z := rand (3 * k + 2) * (-120) - 80 }

/-- The inner `sentences.forEach` of lines 109-129: emit a node for each
sentence containing a year, while fewer than 8 nodes exist overall. -/
def extractFromSentences (sIdx : Nat) (rand : Nat → ℚ) :
    Nat → List (List Char) → List ARFactNode → List ARFactNode
  | _, [], acc => acc
  | idx, s :: rest, acc =>
      match findYear s with
      | some y =>
          if acc.length < 8 then
            extractFromSentences sIdx rand (idx + 1) rest
              (acc ++ [mkNode sIdx idx s y acc.length rand])
          else extractFromSentences sIdx rand (idx + 1) rest acc
      | none => extractFromSentences sIdx rand (idx + 1) rest acc

/-- The `arFactNodes` memo (lines 103-132): scan all sections in order. -/
def arFactNodes (sections : List HistorySection) (rand : Nat → ℚ) :
    List ARFactNode :=
  sections.enum.foldl
    (fun acc p =>
      extractFromSentences p.1 rand 0 (splitSentences p.2.content) acc)
    []

/-! ## Sample values used by counterexamples and witnesses -/

/-- The rand-independent part of a fact node: everything but the three
randomized display coordinates. -/
def nodeCore (n : ARFactNode) : String × List Char × List Char × String × Nat :=
  (n.id, n.year, n.text, n.theme, n.sectionIdx)

/-- A fixed random stream (every `Math.random()` draw returns 0). -/
def rand0 : Nat → ℚ := fun _ => 0

/-- The end-to-end history text of the spec scenario. -/
def historySample : List Char :=
  str "Intro text. ## Origins\nBuilt in 1191 by King X. ## Modern Day\nRenovated in 2005."

/-- A text whose leading piece is nonempty but whitespace-only. -/
def blankHeaderSample : List Char := str " ## A"

/-- A sentence matching both the architecture and the royal-era keywords. -/
def royalArchSentence : List Char := str "In 1200 the king asked an architect."

def royalArchSection : HistorySection :=
  { title := str "T", content := royalArchSentence }

/-- The single node the extractor emits for `royalArchSection` under `rand0`. -/
def sampleNode : ARFactNode :=
  mkNode 0 0 royalArchSentence (str "1200") 0 rand0

/-- A paused engine with a decoded 10-second clip. -/
def pausedState : EngineState :=
  { isPlaying := false, currentTime := 0, duration := 10, offset := 0,
    startTime := 0, playbackSpeed := 1, hasBuffer := true, hasContext := true,
    sourceActive := false }

/-- The paused engine mid-playback-start. -/
def playingState : EngineState :=
  { pausedState with isPlaying := true, sourceActive := true }

/-- An engine with no decoded narration clip. -/
def noBufferState : EngineState :=
  { pausedState with hasBuffer := false, hasContext := false }

/-- A freshly decoded 30-second clip, not yet playing (the C5 scenario). -/
def readyState30 : EngineState :=
  { pausedState with duration := 30 }

def sampleInfo : LandmarkInfo :=
  { name := "Eiffel Tower", description := "Iron lattice tower",
    location := some "Paris", latitude := none, longitude := none }

/-- A journal entry with the given id. -/
def mkRes (s : String) : LandmarkResult :=
  { id := s, info := sampleInfo, history := "", sources := [], imageUrl := "",
    timestamp := 0, relatedLandmarks := [], audioBase64 := none,
    isBookmarked := false, isDownloaded := false }

/-- 51 journal entries with pairwise distinct ids. -/
def sample51 : List LandmarkResult :=
  (List.range 51).map (fun i => mkRes (toString i))

def sampleHistoryData : HistoryData :=
  { text := "## Origins\nBuilt in 1191.", sources := [] }

/-- `mkRes "a"` with its bookmark flag flipped. -/
def bookmarkedA : LandmarkResult := { mkRes "a" with isBookmarked := true }

/-- `mkRes "a"` with its download flag flipped. -/
def downloadedA : LandmarkResult := { mkRes "a" with isDownloaded := true }

/-! ## Helper lemmas: journal store -/

theorem take50_cons {α : Type} (a : α) (l : List α) :
    (a :: l.take 50).take 50 = (a :: l).take 50 := by
  have h50 : (50 : ℕ) = 49 + 1 := rfl
  rw [h50, List.take_succ_cons, List.take_succ_cons, List.take_take]
  norm_num

/-- Upserting an id that is not in the store is a plain capped prepend. -/
theorem saveToHistory_fresh (r : LandmarkResult) (prev : List LandmarkResult)
    (h : r.id ∉ prev.map LandmarkResult.id) :
    saveToHistory r prev = (r :: prev).take 50 := by
  unfold saveToHistory
  have hf : prev.filter (fun item => item.id ≠ r.id) = prev := by
    apply List.filter_eq_self.mpr
    intro a ha
    simp only [decide_eq_true_eq]
    intro he
    exact h (he ▸ List.mem_map_of_mem LandmarkResult.id ha)
  rw [hf]

/-- Folding distinct-id results into an empty store keeps the most recent
50, most recent first. -/
theorem upsertAll_nodup_eq (l : List LandmarkResult)
    (h : (l.map LandmarkResult.id).Nodup) :
    upsertAll l [] = l.reverse.take 50 := by
  induction l using List.reverseRecOn with
  | nil => rfl
  | append_singleton l a ih =>
      rw [List.map_append, List.nodup_append] at h
      obtain ⟨h1, _, hdisj⟩ := h
      have h2 : a.id ∉ l.map LandmarkResult.id := fun hmem =>
        hdisj hmem (by simp)
      rw [upsertAll, List.foldl_append]
      have hfold : l.foldl (fun acc r => saveToHistory r acc) [] = upsertAll l [] := rfl
      rw [hfold, ih h1]
      simp only [List.foldl_cons, List.foldl_nil]
      rw [saveToHistory_fresh]
      · rw [take50_cons, List.reverse_append]
        simp
      · intro hmem
        apply h2
        have hsub : (l.reverse.take 50).map LandmarkResult.id ⊆
            l.reverse.map LandmarkResult.id :=
          ((List.take_sublist _ _).map LandmarkResult.id).subset
        have := hsub hmem
        simpa using this

/-- Taking 50 of the reverse of a 51-element list drops exactly the first
element. -/
theorem reverse_take50_of_length51 (l : List LandmarkResult)
    (h : l.length = 51) : l.reverse.take 50 = (l.drop 1).reverse := by
  cases l with
  | nil => simp at h
  | cons x xs =>
      simp only [List.length_cons] at h
      have hxs : xs.length = 50 := by omega
      have hlen : (xs.reverse).length = 50 := by simp [hxs]
      rw [List.reverse_cons, ← hlen, List.take_left]
      simp

/-- Upserting preserves the id-uniqueness invariant of the store. -/
theorem saveToHistory_nodup (r : LandmarkResult) (prev : List LandmarkResult)
    (h : (prev.map LandmarkResult.id).Nodup) :
    ((saveToHistory r prev).map LandmarkResult.id).Nodup := by
  unfold saveToHistory
  rw [List.map_take]
  apply List.Nodup.sublist (List.take_sublist _ _)
  rw [List.map_cons, List.nodup_cons]
  constructor
  · intro hmem
    obtain ⟨a, ha, hae⟩ := List.mem_map.mp hmem
    have := List.of_mem_filter ha
    simp only [decide_eq_true_eq] at this
    exact this hae
  · exact h.sublist ((List.filter_sublist _).map LandmarkResult.id)

/-! ## Helper lemmas: fact extractor -/

theorem yearAt_shape (l y : List Char) (h : yearAt l = some y) :
    yearShape y = true := by
  rcases l with _ | ⟨a, _ | ⟨b, _ | ⟨c, _ | ⟨d, rest⟩⟩⟩⟩
  · exact absurd h (by simp [yearAt])
  · exact absurd h (by simp [yearAt])
  · exact absurd h (by simp [yearAt])
  · exact absurd h (by simp [yearAt])
  · simp only [yearAt] at h
    split at h
    · rename_i hcond
      cases h
      simp only [yearShape, decide_eq_true_eq]
      exact hcond.1
    · exact absurd h (by simp)

theorem findYearAux_shape :
    ∀ (l : List Char) (prev : Option Char) (y : List Char),
      findYearAux prev l = some y → yearShape y = true := by
  intro l
  induction l with
  | nil => intro prev y h; simp [findYearAux] at h
  | cons c rest ih =>
      intro prev y h
      simp only [findYearAux] at h
      by_cases hb : boundaryOK prev = true
      · rw [if_pos hb] at h
        cases hy : yearAt (c :: rest) with
        | none => rw [hy] at h; exact ih (some c) y h
        | some y' =>
            rw [hy] at h
            cases h
            exact yearAt_shape _ _ hy
      · rw [if_neg hb] at h
        exact ih (some c) y h

/-- Every year the scanner returns has one of the two four-digit shapes. -/
theorem findYear_shape (s y : List Char) (h : findYear s = some y) :
    yearShape y = true :=
  findYearAux_shape s none y h

/-- Every node emitted by the sentence loop either was already in the
accumulator or records the year and theme of one of the scanned sentences. -/
theorem extract_node_src :
    ∀ (sents : List (List Char)) (sIdx idx : Nat) (acc : List ARFactNode)
      (rand : Nat → ℚ) (n : ARFactNode),
      n ∈ extractFromSentences sIdx rand idx sents acc →
      n ∈ acc ∨ ∃ s ∈ sents, findYear s = some n.year ∧ n.theme = themeOf s := by
  intro sents
  induction sents with
  | nil => intro sIdx idx acc rand n h; exact Or.inl h
  | cons s rest ih =>
      intro sIdx idx acc rand n h
      cases hy : findYear s with
      | some y =>
          simp only [extractFromSentences, hy] at h
          by_cases hlen : acc.length < 8
          · rw [if_pos hlen] at h
            rcases ih _ _ _ _ _ h with hacc | ⟨s', hs', hy', ht'⟩
            · rcases List.mem_append.mp hacc with h₁ | h₂
              · exact Or.inl h₁
              · simp only [List.mem_singleton] at h₂
                subst h₂
                refine Or.inr ⟨s, by simp, ?_, rfl⟩
                simpa [mkNode] using hy
            · exact Or.inr ⟨s', by simp [hs'], hy', ht'⟩
          · rw [if_neg hlen] at h
            rcases ih _ _ _ _ _ h with h₁ | ⟨s', hs', hrest⟩
            · exact Or.inl h₁
            · exact Or.inr ⟨s', by simp [hs'], hrest⟩
      | none =>
          simp only [extractFromSentences, hy] at h
          rcases ih _ _ _ _ _ h with h₁ | ⟨s', hs', hrest⟩
          · exact Or.inl h₁
          · exact Or.inr ⟨s', by simp [hs'], hrest⟩

/-- The sentence loop never grows the node list past 8. -/
theorem extract_length_le :
    ∀ (sents : List (List Char)) (sIdx idx : Nat) (acc : List ARFactNode)
      (rand : Nat → ℚ), acc.length ≤ 8 →
      (extractFromSentences sIdx rand idx sents acc).length ≤ 8 := by
  intro sents
  induction sents with
  | nil => intro sIdx idx acc rand h; exact h
  | cons s rest ih =>
      intro sIdx idx acc rand h
      cases hy : findYear s with
      | some y =>
          simp only [extractFromSentences, hy]
          by_cases hlen : acc.length < 8
          · rw [if_pos hlen]
            apply ih
            simp only [List.length_append, List.length_singleton]
            omega
          · rw [if_neg hlen]
            exact ih _ _ _ _ h
      | none =>
          simp only [extractFromSentences, hy]
          exact ih _ _ _ _ h

/-- The rand-independent projection of the sentence loop's output depends
only on the sentences and the projection of the accumulator. -/
theorem extract_core_eq :
    ∀ (sents : List (List Char)) (sIdx idx : Nat)
      (acc acc' : List ARFactNode) (r r' : Nat → ℚ),
      acc.map nodeCore = acc'.map nodeCore →
      (extractFromSentences sIdx r idx sents acc).map nodeCore =
        (extractFromSentences sIdx r' idx sents acc').map nodeCore := by
  intro sents
  induction sents with
  | nil => intro sIdx idx acc acc' r r' hcore; exact hcore
  | cons s rest ih =>
      intro sIdx idx acc acc' r r' hcore
      have hlen : acc.length = acc'.length := by
        have := congrArg List.length hcore
        simpa using this
      cases hy : findYear s with
      | none =>
          simp only [extractFromSentences, hy]
          exact ih _ _ _ _ _ _ hcore
      | some y =>
          simp only [extractFromSentences, hy]
          by_cases hl : acc.length < 8
          · rw [if_pos hl, if_pos (by omega : acc'.length < 8)]
            apply ih
            simp only [List.map_append, List.map_cons, List.map_nil]
            rw [hcore]
            simp [nodeCore, mkNode]
          · rw [if_neg hl, if_neg (by omega : ¬ acc'.length < 8)]
            exact ih _ _ _ _ _ _ hcore

/-- The id, year, text, theme and section index of the extracted nodes do
not depend on the random stream. -/
theorem arFactNodes_core_eq (secs : List HistorySection) (r r' : Nat → ℚ) :
    (arFactNodes secs r).map nodeCore = (arFactNodes secs r').map nodeCore := by
  suffices h : ∀ (ps : List (Nat × HistorySection)) (acc acc' : List ARFactNode),
      acc.map nodeCore = acc'.map nodeCore →
      (ps.foldl (fun a p =>
          extractFromSentences p.1 r 0 (splitSentences p.2.content) a)
        acc).map nodeCore =
      (ps.foldl (fun a p =>
          extractFromSentences p.1 r' 0 (splitSentences p.2.content) a)
        acc').map nodeCore by
    exact h secs.enum [] [] rfl
  intro ps
  induction ps with
  | nil => intro acc acc' h; exact h
  | cons p rest ih =>
      intro acc acc' h
      exact ih _ _ (extract_core_eq _ _ _ _ _ _ _ h)

/-- The extractor emits at most 8 nodes. -/
theorem arFactNodes_length_le (secs : List HistorySection) (rand : Nat → ℚ) :
    (arFactNodes secs rand).length ≤ 8 := by
  suffices h : ∀ (ps : List (Nat × HistorySection)) (acc : List ARFactNode),
      acc.length ≤ 8 →
      (ps.foldl (fun a p =>
          extractFromSentences p.1 rand 0 (splitSentences p.2.content) a)
        acc).length ≤ 8 by
    exact h secs.enum [] (by simp)
  intro ps
  induction ps with
  | nil => intro acc h; exact h
  | cons p rest ih =>
      intro acc h
      exact ih _ (extract_length_le _ _ _ _ _ h)

theorem foldl_extract_mem_src :
    ∀ (ps : List (Nat × HistorySection)) (acc : List ARFactNode)
      (rand : Nat → ℚ) (n : ARFactNode),
      n ∈ ps.foldl (fun a p =>
          extractFromSentences p.1 rand 0 (splitSentences p.2.content) a)
        acc →
      n ∈ acc ∨ ∃ p ∈ ps, ∃ s ∈ splitSentences (Prod.snd p).content,
        findYear s = some n.year ∧ n.theme = themeOf s := by
  intro ps
  induction ps with
  | nil => intro acc rand n h; exact Or.inl h
  | cons p rest ih =>
      intro acc rand n h
      rcases ih _ _ _ h with hmem | ⟨p', hp', hrest⟩
      · rcases extract_node_src _ _ _ _ _ _ hmem with h₁ | ⟨s, hs, hfind⟩
        · exact Or.inl h₁
        · exact Or.inr ⟨p, by simp, s, hs, hfind⟩
      · exact Or.inr ⟨p', by simp [hp'], hrest⟩

/-- Every emitted node records the year and theme computed from one
sentence of one of the input sections. -/
theorem arFactNodes_mem_src (secs : List HistorySection) (rand : Nat → ℚ)
    (n : ARFactNode) (h : n ∈ arFactNodes secs rand) :
    ∃ sec ∈ secs, ∃ s ∈ splitSentences sec.content,
      findYear s = some n.year ∧ n.theme = themeOf s := by
  rcases foldl_extract_mem_src secs.enum [] rand n h with h₀ | ⟨p, hp, s, hs, hfind⟩
  · simp at h₀
  · refine ⟨p.2, ?_, s, hs, hfind⟩
    have hsnd : p.2 ∈ secs.enum.map Prod.snd := List.mem_map_of_mem Prod.snd hp
    simpa [List.enum_map_snd] using hsnd

/-- The one node extracted from `royalArchSection` under `rand0`. -/
theorem sampleNode_mem :
    sampleNode ∈ arFactNodes [royalArchSection] rand0 := by
  rw [show arFactNodes [royalArchSection] rand0 = [sampleNode] from rfl]
  exact List.mem_singleton_self _

/-! ## Theorems: audio timing engine -/

/-- C4 counterexample: the claim says `seek` clamps the target to
`[0, duration]` in every state, but in the paused branch `handleSeek` stores
the raw target: seeking to 20 on a paused 10-second clip stores offset 20,
which is not the clamped value. -/
theorem seek_paused_no_clamp_cex :
    (handleSeek 20 5 pausedState).offset = 20 ∧
    ¬ (handleSeek 20 5 pausedState).offset ≤ pausedState.duration := by
  norm_num [handleSeek, pausedState]

/-- C4 (amended): for every seek target `t`: if the engine is playing (with a
decoded clip and a context), playback restarts from `t` clamped to
`[0, duration]` with a fresh clock anchor; if the engine is paused, the raw
(unclamped) target is stored as the offset and position, and no playback
starts. -/
theorem seek_behavior :
    ∀ (s : EngineState) (t now : ℚ),
      (s.isPlaying = true → s.hasBuffer = true → s.hasContext = true →
        (handleSeek t now s).offset = max 0 (min t s.duration) ∧
        (handleSeek t now s).startTime = now ∧
        (handleSeek t now s).isPlaying = true ∧
        (handleSeek t now s).currentTime = (handleSeek t now s).offset) ∧
      (s.isPlaying = false →
        (handleSeek t now s).offset = t ∧
        (handleSeek t now s).currentTime = t ∧
        (handleSeek t now s).isPlaying = false ∧
        (handleSeek t now s).sourceActive = s.sourceActive ∧
        (handleSeek t now s).startTime = s.startTime) := by
  intro s t now
  constructor
  · intro hp hb hc
    simp [handleSeek, playFromOffset, stopPlayback, hp, hb, hc]
  · intro hp
    simp [handleSeek, hp]

/-- Witness for `seek_behavior` at concrete states. -/
theorem seek_behavior_witness :
    ((handleSeek 20 5 playingState).offset = max 0 (min 20 playingState.duration) ∧
      (handleSeek 20 5 playingState).startTime = 5 ∧
      (handleSeek 20 5 playingState).isPlaying = true ∧
      (handleSeek 20 5 playingState).currentTime = (handleSeek 20 5 playingState).offset) ∧
    ((handleSeek 7 5 pausedState).offset = 7 ∧
      (handleSeek 7 5 pausedState).currentTime = 7 ∧
      (handleSeek 7 5 pausedState).isPlaying = false ∧
      (handleSeek 7 5 pausedState).sourceActive = pausedState.sourceActive ∧
      (handleSeek 7 5 pausedState).startTime = pausedState.startTime) :=
  ⟨(seek_behavior playingState 20 5).1 rfl rfl rfl,
   (seek_behavior pausedState 7 5).2 rfl⟩

/-- C5: changing playback speed re-anchors the clock (offset := current
position, start := the moment of change), so the position function is
continuous across the change; and in the end-to-end scenario, `play(0)` on a
30-second clip, `setSpeed(2)` after 10 real seconds at speed 1, then reading
the position 5 real seconds later reports exactly 20 seconds. -/
theorem speed_change_continuity :
    (∀ (s : EngineState) (speed now : ℚ), s.hasContext = true →
      s.playbackSpeed ≠ speed →
      posAt (changePlaybackSpeed speed now s) now = s.currentTime) ∧
    (updateProgress 15 (changePlaybackSpeed 2 10
        (updateProgress 10 (playFromOffset 0 0 readyState30)))).currentTime = 20 := by
  constructor
  · intro s speed now hc hne
    simp [changePlaybackSpeed, posAt, hne, hc]
  · norm_num [updateProgress, changePlaybackSpeed, playFromOffset, stopPlayback,
      readyState30, pausedState]

/-- Witness for `speed_change_continuity` at a concrete state. -/
theorem speed_change_continuity_witness :
    (readyState30.hasContext = true ∧ readyState30.playbackSpeed ≠ 2) ∧
    posAt (changePlaybackSpeed 2 7 readyState30) 7 = readyState30.currentTime :=
  ⟨⟨rfl, by norm_num [readyState30, pausedState]⟩,
   speed_change_continuity.1 readyState30 2 7 rfl
     (by norm_num [readyState30, pausedState])⟩

/-- C6: while playing (with a context) at non-negative speed, the positions
produced by two successive progress ticks at non-decreasing clock readings
are non-decreasing; and a tick whose computed position reaches `duration`
clears `isPlaying` and pins the position at exactly `duration`. -/
theorem position_monotone_pins :
    ∀ (s : EngineState) (n₁ n₂ : ℚ),
      s.isPlaying = true → s.hasContext = true → 0 ≤ s.playbackSpeed →
      n₁ ≤ n₂ →
      (updateProgress n₁ s).currentTime ≤
        (updateProgress n₂ (updateProgress n₁ s)).currentTime ∧
      (s.duration ≤ posAt s n₁ →
        (updateProgress n₁ s).isPlaying = false ∧
        (updateProgress n₁ s).currentTime = s.duration) := by
  intro s n₁ n₂ h1 h2 hsp hn
  by_cases hd : (n₁ - s.startTime) * s.playbackSpeed + s.offset ≥ s.duration
  · constructor
    · simp [updateProgress, h1, h2, hd]
    · intro _
      simp [updateProgress, h1, h2, hd]
  · have hlt : (n₁ - s.startTime) * s.playbackSpeed + s.offset < s.duration :=
      lt_of_not_ge hd
    have hle : (n₁ - s.startTime) * s.playbackSpeed ≤
        (n₂ - s.startTime) * s.playbackSpeed :=
      mul_le_mul_of_nonneg_right (by linarith) hsp
    constructor
    · by_cases hd₂ : (n₂ - s.startTime) * s.playbackSpeed + s.offset ≥ s.duration
      · simp [updateProgress, h1, h2, hd, hd₂]
        linarith
      · simp [updateProgress, h1, h2, hd, hd₂]
        linarith
    · intro habs
      exact absurd habs (by simpa [posAt] using hd)

/-- Witness for `position_monotone_pins` at a concrete playing state. -/
theorem position_monotone_pins_witness :
    (updateProgress 3 playingState).currentTime ≤
      (updateProgress 5 (updateProgress 3 playingState)).currentTime ∧
    (playingState.duration ≤ posAt playingState 3 →
      (updateProgress 3 playingState).isPlaying = false ∧
      (updateProgress 3 playingState).currentTime = playingState.duration) :=
  position_monotone_pins playingState 3 5 rfl rfl
    (by norm_num [playingState, pausedState]) (by norm_num)

/-- C9: with no decoded clip or no audio context, starting playback is a
guarded no-op: `playFromOffset` leaves the whole state unchanged (no source
created, `isPlaying` stays false, position untouched), and so does
`togglePlayback` from a non-playing state. -/
theorem play_before_load_noop :
    ∀ (s : EngineState) (t now : ℚ),
      s.hasBuffer = false ∨ s.hasContext = false →
      playFromOffset t now s = s ∧
      (s.isPlaying = false → togglePlayback now s = s) := by
  intro s t now h
  have hp : ∀ u, playFromOffset u now s = s := by
    intro u
    simp only [playFromOffset]
    rw [if_pos h]
  refine ⟨hp t, fun hpl => ?_⟩
  simp only [togglePlayback, hpl]
  simp only [Bool.false_eq_true, if_false]
  split
  · exact hp 0
  · exact hp s.currentTime

/-- Witness for `play_before_load_noop` at a concrete bufferless state. -/
theorem play_before_load_noop_witness :
    playFromOffset 4 2 noBufferState = noBufferState ∧
    togglePlayback 2 noBufferState = noBufferState :=
  ⟨(play_before_load_noop noBufferState 4 2 (Or.inl rfl)).1,
   (play_before_load_noop noBufferState 4 2 (Or.inl rfl)).2 rfl⟩

/-! ## Theorems: journal store -/

/-- C3: `saveToHistory` removes the matching id, prepends, truncates to 50:
upserting an existing id never increases the stored count; inserting 51
distinct-id results into an empty store leaves exactly the most recent 50,
most recently inserted first, with the oldest evicted; the sequence
upsert A, upsert B, upsert A yields `[A, B]`; and ids stay unique. -/
theorem journal_upsert_spec :
    (∀ (r : LandmarkResult) (prev : List LandmarkResult),
        r.id ∈ prev.map LandmarkResult.id →
        (saveToHistory r prev).length ≤ prev.length) ∧
    (∀ l : List LandmarkResult, (l.map LandmarkResult.id).Nodup →
        l.length = 51 →
        upsertAll l [] = (l.drop 1).reverse ∧ (upsertAll l []).length = 50) ∧
    (∀ A B : LandmarkResult, A.id ≠ B.id →
        saveToHistory A (saveToHistory B (saveToHistory A [])) = [A, B]) ∧
    (∀ (r : LandmarkResult) (prev : List LandmarkResult),
        (prev.map LandmarkResult.id).Nodup →
        ((saveToHistory r prev).map LandmarkResult.id).Nodup) := by
  refine ⟨?_, ?_, ?_, saveToHistory_nodup⟩
  · intro r prev h
    have hlt : (prev.filter (fun item => item.id ≠ r.id)).length < prev.length := by
      apply List.length_filter_lt_length_iff_exists.mpr
      obtain ⟨a, ha, hae⟩ := List.mem_map.mp h
      exact ⟨a, ha, by simp [hae]⟩
    have hle := (List.take_sublist 50
      (r :: prev.filter (fun item => item.id ≠ r.id))).length_le
    unfold saveToHistory
    simp only [List.length_cons] at hle ⊢
    omega
  · intro l hnd hlen
    have he := upsertAll_nodup_eq l hnd
    have h₂ := reverse_take50_of_length51 l hlen
    refine ⟨he.trans h₂, ?_⟩
    rw [he, h₂]
    simp [hlen]
  · intro A B hAB
    have hBA : B.id ≠ A.id := hAB.symm
    have h1 : saveToHistory A [] = [A] := by
      simp [saveToHistory]
    have h2 : saveToHistory B [A] = [B, A] := by
      simp [saveToHistory, List.filter, hAB]
    rw [h1, h2]
    simp [saveToHistory, List.filter, hBA]

/-- Witness for `journal_upsert_spec` at concrete journals. -/
theorem journal_upsert_spec_witness :
    (saveToHistory (mkRes "a") [mkRes "a"]).length ≤ [mkRes "a"].length ∧
    upsertAll sample51 [] = (sample51.drop 1).reverse ∧
    saveToHistory (mkRes "a")
        (saveToHistory (mkRes "b") (saveToHistory (mkRes "a") [])) =
      [mkRes "a", mkRes "b"] ∧
    ((saveToHistory (mkRes "a") [mkRes "b"]).map LandmarkResult.id).Nodup :=
  ⟨journal_upsert_spec.1 _ _ (by decide),
   (journal_upsert_spec.2.1 sample51 (by decide) (by decide)).1,
   journal_upsert_spec.2.2.1 _ _ (by decide),
   journal_upsert_spec.2.2.2 _ _ (by decide)⟩

/-- C10: `toggleBookmark` and `toggleDownload` preserve the journal's length
and order; a non-matching entry is completely unchanged; a matching entry
has exactly its one flag flipped and every other field unchanged. -/
theorem toggle_flags_frame :
    ∀ (prev : List LandmarkResult) (id : String) (i : Nat),
      (toggleBookmark id prev).length = prev.length ∧
      (toggleDownload id prev).length = prev.length ∧
      (∀ e e', prev[i]? = some e → (toggleBookmark id prev)[i]? = some e' →
        (e.id ≠ id → e' = e) ∧
        (e.id = id → e'.id = e.id ∧ e'.info = e.info ∧ e'.history = e.history ∧
          e'.sources = e.sources ∧ e'.imageUrl = e.imageUrl ∧
          e'.timestamp = e.timestamp ∧
          e'.relatedLandmarks = e.relatedLandmarks ∧
          e'.audioBase64 = e.audioBase64 ∧ e'.isDownloaded = e.isDownloaded ∧
          e'.isBookmarked = !e.isBookmarked)) ∧
      (∀ e e', prev[i]? = some e → (toggleDownload id prev)[i]? = some e' →
        (e.id ≠ id → e' = e) ∧
        (e.id = id → e'.id = e.id ∧ e'.info = e.info ∧ e'.history = e.history ∧
          e'.sources = e.sources ∧ e'.imageUrl = e.imageUrl ∧
          e'.timestamp = e.timestamp ∧
          e'.relatedLandmarks = e.relatedLandmarks ∧
          e'.audioBase64 = e.audioBase64 ∧ e'.isBookmarked = e.isBookmarked ∧
          e'.isDownloaded = !e.isDownloaded)) := by
  intro prev id i
  refine ⟨by simp [toggleBookmark], by simp [toggleDownload], ?_, ?_⟩
  · intro e e' he he'
    rw [toggleBookmark, List.getElem?_map, he] at he'
    simp only [Option.map_some'] at he'
    rw [Option.some_inj] at he'
    constructor
    · intro hne
      rw [← he']
      simp [hne]
    · intro heq
      rw [← he']
      simp [heq]
  · intro e e' he he'
    rw [toggleDownload, List.getElem?_map, he] at he'
    simp only [Option.map_some'] at he'
    rw [Option.some_inj] at he'
    constructor
    · intro hne
      rw [← he']
      simp [hne]
    · intro heq
      rw [← he']
      simp [heq]

/-- Witness for `toggle_flags_frame` at a one-entry journal, in both the
matching and the non-matching case. -/
theorem toggle_flags_frame_witness :
    (toggleBookmark "a" [mkRes "a"]).length = [mkRes "a"].length ∧
    (bookmarkedA.id = (mkRes "a").id ∧ bookmarkedA.info = (mkRes "a").info ∧
      bookmarkedA.history = (mkRes "a").history ∧
      bookmarkedA.sources = (mkRes "a").sources ∧
      bookmarkedA.imageUrl = (mkRes "a").imageUrl ∧
      bookmarkedA.timestamp = (mkRes "a").timestamp ∧
      bookmarkedA.relatedLandmarks = (mkRes "a").relatedLandmarks ∧
      bookmarkedA.audioBase64 = (mkRes "a").audioBase64 ∧
      bookmarkedA.isDownloaded = (mkRes "a").isDownloaded ∧
      bookmarkedA.isBookmarked = !(mkRes "a").isBookmarked) ∧
    (downloadedA.id = (mkRes "a").id ∧ downloadedA.info = (mkRes "a").info ∧
      downloadedA.history = (mkRes "a").history ∧
      downloadedA.sources = (mkRes "a").sources ∧
      downloadedA.imageUrl = (mkRes "a").imageUrl ∧
      downloadedA.timestamp = (mkRes "a").timestamp ∧
      downloadedA.relatedLandmarks = (mkRes "a").relatedLandmarks ∧
      downloadedA.audioBase64 = (mkRes "a").audioBase64 ∧
      downloadedA.isBookmarked = (mkRes "a").isBookmarked ∧
      downloadedA.isDownloaded = !(mkRes "a").isDownloaded) ∧
    mkRes "a" = mkRes "a" :=
  ⟨(toggle_flags_frame [mkRes "a"] "a" 0).1,
   ((toggle_flags_frame [mkRes "a"] "a" 0).2.2.1 (mkRes "a") bookmarkedA
      rfl (by decide)).2 rfl,
   ((toggle_flags_frame [mkRes "a"] "a" 0).2.2.2 (mkRes "a") downloadedA
      rfl (by decide)).2 rfl,
   ((toggle_flags_frame [mkRes "a"] "z" 0).2.2.1 (mkRes "a") (mkRes "a")
      rfl (by decide)).1 (by decide)⟩

/-- C8: the history fetch and the related-landmarks fetch are joined
atomically: only when both succeed is a combined result built and saved;
when either fails, no result is created, the journal is untouched and a
single error surfaces. -/
theorem joined_fetch_atomic :
    ∀ (newId : String) (info : LandmarkInfo) (image : String) (ts : Nat)
      (hf : Except String HistoryData)
      (rf : Except String (List RelatedLandmark))
      (journal : List LandmarkResult),
      (((∃ e, hf = Except.error e) ∨ (∃ e, rf = Except.error e)) →
        ∃ e, processLandmark newId info image ts hf rf journal =
          (none, journal, some e)) ∧
      (∀ h r, hf = Except.ok h → rf = Except.ok r →
        ∃ nr, processLandmark newId info image ts hf rf journal =
            (some nr, saveToHistory nr journal, none) ∧
          nr.history = h.text ∧ nr.sources = h.sources ∧
          nr.relatedLandmarks = r) := by
  intro newId info image ts hf rf journal
  constructor
  · rintro (⟨e, rfl⟩ | ⟨e, rfl⟩)
    · exact ⟨e, by simp [processLandmark, promiseAll2]⟩
    · cases hf with
      | error e' => exact ⟨e', by simp [processLandmark, promiseAll2]⟩
      | ok hd => exact ⟨e, by simp [processLandmark, promiseAll2]⟩
  · rintro h r rfl rfl
    exact ⟨_, rfl, rfl, rfl, rfl⟩

/-- Witness for `joined_fetch_atomic`: one failing fetch pair, one
succeeding fetch pair. -/
theorem joined_fetch_atomic_witness :
    (∃ e, processLandmark "id1" sampleInfo "img" 0 (Except.error "boom")
        (Except.ok []) [] = (none, [], some e)) ∧
    (∃ nr, processLandmark "id1" sampleInfo "img" 0
          (Except.ok sampleHistoryData) (Except.ok []) [] =
        (some nr, saveToHistory nr [], none) ∧
      nr.history = sampleHistoryData.text ∧
      nr.sources = sampleHistoryData.sources ∧ nr.relatedLandmarks = []) :=
  ⟨(joined_fetch_atomic "id1" sampleInfo "img" 0 (Except.error "boom")
      (Except.ok []) []).1 (Or.inl ⟨"boom", rfl⟩),
   (joined_fetch_atomic "id1" sampleInfo "img" 0 (Except.ok sampleHistoryData)
      (Except.ok []) []).2 sampleHistoryData [] rfl rfl⟩

/-! ## Theorems: section parser and fact extractor -/

/-- C7 counterexample: the claim says the parser outputs `n+1` sections
whenever the text before the first marker is non-empty, but for `" ## A"`
the leading text `" "` is non-empty while the output has exactly
`n = 1` section — the whitespace-only leading piece is trimmed away. -/
theorem sections_blank_leading_cex :
    leadingText blankHeaderSample ≠ [] ∧
    numMarkers blankHeaderSample = 1 ∧
    (sectionsOf blankHeaderSample).length = 1 := by
  decide

/-- C7 (amended): for a text with `n` header markers, the parser outputs
exactly `n` sections, or `n+1` when the text before the first marker is
non-blank (non-empty after trimming whitespace); the sections after the
optional leading one are the marker pieces in source order; the parser is a
total function, deterministic on equal inputs; and empty input yields an
empty section list. -/
theorem sections_count_spec :
    ∀ t : List Char,
      (trimChars (leadingText t) = [] →
        (sectionsOf t).length = numMarkers t) ∧
      (trimChars (leadingText t) ≠ [] →
        (sectionsOf t).length = numMarkers t + 1) ∧
      (sectionsOf t).drop (if trimChars (leadingText t) = [] then 0 else 1) =
        (rawSplit t).tail.map mkTailSection ∧
      sectionsOf [] = [] ∧
      (∀ t', t' = t → sectionsOf t' = sectionsOf t) := by
  intro t
  by_cases h : trimChars (leadingText t) = []
  · simp only [leadingText] at h
    refine ⟨fun _ => ?_, fun hc => absurd (by simpa [leadingText] using h) hc,
      ?_, rfl, fun t' ht => by rw [ht]⟩
    · simp [sectionsOf, numMarkers, h]
    · simp [sectionsOf, leadingText, h]
  · simp only [leadingText] at h
    refine ⟨fun hc => absurd (by simpa [leadingText] using hc) h, fun _ => ?_,
      ?_, rfl, fun t' ht => by rw [ht]⟩
    · simp [sectionsOf, numMarkers, h]
    · simp [sectionsOf, leadingText, h]

/-- Witness for `sections_count_spec`: blank leading text on `" ## A"`,
non-blank leading text on the end-to-end sample. -/
theorem sections_count_spec_witness :
    (sectionsOf blankHeaderSample).length = numMarkers blankHeaderSample ∧
    (sectionsOf historySample).length = numMarkers historySample + 1 :=
  ⟨(sections_count_spec blankHeaderSample).1 (by decide),
   (sections_count_spec historySample).2.1 (by decide)⟩

/-- C1 counterexample: on the end-to-end history sample the parser titles
the leading section with its own first line `"Intro text."` (it is shorter
than 30 characters), not `"Introduction"`; and the `"Renovated in 2005."`
node is themed `"General History"` (no modernization keyword matches), not
`"Modernization"`. -/
theorem endToEnd_scenario_cex :
    (sectionsOf historySample).map HistorySection.title =
      [str "Intro text.", str "Origins", str "Modern Day"] ∧
    (sectionsOf historySample).map HistorySection.title ≠
      [str "Introduction", str "Origins", str "Modern Day"] ∧
    (arFactNodes (sectionsOf historySample) rand0).map
        (fun n => (n.year, n.theme)) =
      [(str "1191", "Royal Era"), (str "2005", "General History")] ∧
    (arFactNodes (sectionsOf historySample) rand0).map
        (fun n => (n.year, n.theme)) ≠
      [(str "1191", "Royal Era"), (str "2005", "Modernization")] := by
  decide

/-- C1 (amended): on the end-to-end history sample the parser yields exactly
the three sections titled `"Intro text."`, `"Origins"`, `"Modern Day"` in
that order, and for every random stream the extractor yields exactly two
nodes, one with year `"1191"` and theme `"Royal Era"` and one with year
`"2005"` and theme `"General History"`. -/
theorem endToEnd_scenario_amended :
    ∀ rand : Nat → ℚ,
      (sectionsOf historySample).map HistorySection.title =
        [str "Intro text.", str "Origins", str "Modern Day"] ∧
      (arFactNodes (sectionsOf historySample) rand).map
          (fun n => (n.year, n.theme)) =
        [(str "1191", "Royal Era"), (str "2005", "General History")] ∧
      (arFactNodes (sectionsOf historySample) rand).length = 2 := by
  intro rand
  have hmap : (arFactNodes (sectionsOf historySample) rand).map nodeCore =
      (arFactNodes (sectionsOf historySample) rand0).map nodeCore :=
    arFactNodes_core_eq _ rand rand0
  have hyt : ∀ l₁ l₂ : List ARFactNode, l₁.map nodeCore = l₂.map nodeCore →
      l₁.map (fun n => (n.year, n.theme)) =
        l₂.map (fun n => (n.year, n.theme)) := by
    intro l₁ l₂ hc
    have hcast := congrArg
      (List.map (fun c : String × List Char × List Char × String × Nat =>
        (c.2.1, c.2.2.2.1))) hc
    simpa [List.map_map, Function.comp, nodeCore] using hcast
  refine ⟨by decide, ?_, ?_⟩
  · rw [hyt _ _ hmap]
    decide
  · have hlen := congrArg List.length hmap
    simp only [List.length_map] at hlen
    rw [hlen]
    decide

/-- C2 counterexample: the claim gives first-matching-rule-wins precedence
architecture > conflict > modernization > royal-era, but the code's theme
chain lets a later rule override an earlier one: a sentence matching both
`architect` and `king` is themed `"Royal Era"`, not `"Architecture"`. -/
theorem factExtractor_theme_precedence_cex :
    (arFactNodes [royalArchSection] rand0).map ARFactNode.theme =
      ["Royal Era"] ∧
    themeOfSpecOrder royalArchSentence = "Architecture" ∧
    ("Royal Era" : String) ≠ "Architecture" := by
  decide

/-- C2 (amended): the extractor emits at most 8 nodes; every emitted node's
year has one of the four-digit shapes `1\d{3}` or `20\d{2}`; the id, year,
text, theme and section index of the output do not depend on the random
coordinate stream; the theme rule is first-matching-rule-wins with
precedence royal-era > modernization > conflict > architecture (the last
matching override in the code's chain wins), falling back to general; and
every node's year and theme come from one sentence of the input. -/
theorem factExtractor_bounds_theme :
    (∀ (secs : List HistorySection) (rand : Nat → ℚ),
        (arFactNodes secs rand).length ≤ 8) ∧
    (∀ (secs : List HistorySection) (rand : Nat → ℚ) (n : ARFactNode),
        n ∈ arFactNodes secs rand → yearShape n.year = true) ∧
    (∀ (secs : List HistorySection) (r r' : Nat → ℚ),
        (arFactNodes secs r).map nodeCore =
          (arFactNodes secs r').map nodeCore) ∧
    (∀ s : List Char, themeOf s = themeOfPriority s) ∧
    (∀ (secs : List HistorySection) (rand : Nat → ℚ) (n : ARFactNode),
        n ∈ arFactNodes secs rand →
        ∃ sec ∈ secs, ∃ s ∈ splitSentences sec.content,
          findYear s = some n.year ∧ n.theme = themeOf s) := by
  refine ⟨arFactNodes_length_le, ?_, arFactNodes_core_eq, fun s => rfl,
    arFactNodes_mem_src⟩
  intro secs rand n hmem
  obtain ⟨sec, _, s, _, hfind, _⟩ := arFactNodes_mem_src secs rand n hmem
  exact findYear_shape s n.year hfind

/-- Witness for `factExtractor_bounds_theme` on the one-node sample. -/
theorem factExtractor_bounds_theme_witness :
    (arFactNodes [royalArchSection] rand0).length ≤ 8 ∧
    yearShape sampleNode.year = true ∧
    themeOf royalArchSentence = themeOfPriority royalArchSentence ∧
    (∃ sec ∈ [royalArchSection], ∃ s ∈ splitSentences sec.content,
      findYear s = some sampleNode.year ∧ sampleNode.theme = themeOf s) :=
  ⟨factExtractor_bounds_theme.1 [royalArchSection] rand0,
   factExtractor_bounds_theme.2.1 [royalArchSection] rand0 sampleNode
     sampleNode_mem,
   factExtractor_bounds_theme.2.2.2.1 royalArchSentence,
   factExtractor_bounds_theme.2.2.2.2 [royalArchSection] rand0 sampleNode
     sampleNode_mem⟩

end LuminaTour
